import Mathlib

/-!
# Block-proposal assembly: `App.PrepareProposal`

A shallow embedding of `app/prepare_proposal.go`.  The method is a straight-line
orchestrator over external collaborators (`filterTxs`, `square.Build`,
`shares.ToBytes`, `da.ExtendShares`, `da.NewDataAvailabilityHeader`), so the
collaborators and the types they exchange are parameters of the embedding.

Effects are made explicit: one run yields the chronological list of observable
events (lines printed, logger records, calls made to the collaborators) and an
outcome, which is either the returned response or the value the run panicked with.
-/

namespace CelestiaApp

/-! ## Machine integers -/

/-- Half the range of a 64-bit word, `2^63`. -/
def int64Bound : Int := 9223372036854775808

/-- The number of 64-bit words, `2^64`. -/
def uint64Mod : Int := 18446744073709551616

/-- Go `int64` (and `int` on the 64-bit platforms the node runs on). -/
abbrev GoInt : Type := { x : Int // -int64Bound ≤ x ∧ x < int64Bound }

/-- Two's complement wrap-around of a mathematical integer into the `int64` range. -/
def wrapInt64 (x : Int) : Int := (x + int64Bound) % uint64Mod - int64Bound

/-- Go `a + b` on `int64` operands: the sum, wrapped. -/
def addInt64 (a b : GoInt) : GoInt :=
  ⟨wrapInt64 (a.val + b.val), by
    unfold wrapInt64 int64Bound uint64Mod
    constructor <;> omega⟩

/-- The `int64` constant `1`. -/
def oneInt64 : GoInt := ⟨1, by unfold int64Bound; omega⟩

/-- Go conversion `uint64(x)` of an `int`: reduction modulo `2^64`. -/
def toUint64 (x : GoInt) : Nat := (x.val % uint64Mod).toNat

/-! ## Data exchanged with the consensus engine -/

/-- Go `[]byte`. -/
abbrev Bytes : Type := List (Fin 256)

/-- Go `error` values: `Error()` is the message, `ident` tells apart two error
values that carry the same message. -/
structure GoError where
  ident : Nat
  msg : String
deriving DecidableEq, Repr

/-- The method `err.Error()`. -/
def GoError.Error (err : GoError) : String := err.msg

/-- The fields of `core.Header` that line 23 sets; the others keep their zero value. -/
structure Header where
  ChainID : String
  Height : GoInt
deriving DecidableEq

/-- The message `core.Data`. -/
structure Data where
  Txs : List Bytes
  SquareSize : Nat
  Hash : Bytes
deriving DecidableEq

/-- The message `abci.RequestPrepareProposal`: the method reads `req.BlockData.Txs`
only; `rest` stands for whatever else a request carries. `BlockData` is a pointer,
`none` is `nil`. -/
structure RequestPrepareProposal (ρ : Type) where
  BlockData : Option Data
  rest : ρ

/-- The message `abci.ResponsePrepareProposal`. -/
structure ResponsePrepareProposal where
  BlockData : Option Data
deriving DecidableEq

/-! ## External collaborators -/

/-- The types owned by the collaborators. -/
structure Externals where
  Context : Type
  AnteHandler : Type
  TxConfig : Type
  SignModeHandler : Type
  SigGasConsumer : Type
  AccountKeeper : Type
  BankKeeper : Type
  BlobKeeper : Type
  FeeGrantKeeper : Type
  IBCKeeper : Type
  Square : Type
  ExtendedDataSquare : Type
  DataAvailabilityHeader : Type

/-- The receiver `app *App`: the fields and methods `PrepareProposal` reads. -/
structure App (X : Externals) where
  GetChainID : String
  LastBlockHeight : GoInt
  NewProposalContext : Header → X.Context
  AccountKeeper : X.AccountKeeper
  BankKeeper : X.BankKeeper
  BlobKeeper : X.BlobKeeper
  FeeGrantKeeper : X.FeeGrantKeeper
  IBCKeeper : X.IBCKeeper
  GetTxConfig : X.TxConfig
  txConfig : X.TxConfig
  AppVersion : Nat
  GovSquareSizeUpperBound : X.Context → GoInt

/-- The package-level functions and the methods of external types that
`PrepareProposal` calls. `Build` returns `(Square, [][]byte, error)` in Go; the
method reads the first two only when the error is `nil`. -/
structure Packages (X : Externals) where
  NewAnteHandler : X.AccountKeeper → X.BankKeeper → X.BlobKeeper → X.FeeGrantKeeper →
    X.SignModeHandler → X.SigGasConsumer → X.IBCKeeper → X.AnteHandler
  SignModeHandler : X.TxConfig → X.SignModeHandler
  DefaultSigVerificationGasConsumer : X.SigGasConsumer
  filterTxs : X.Context → X.AnteHandler → X.TxConfig → List Bytes → List Bytes
  Build : List Bytes → Nat → GoInt → Except GoError (X.Square × List Bytes)
  Size : X.Square → GoInt
  ToBytes : X.Square → List Bytes
  ExtendShares : List Bytes → Except GoError X.ExtendedDataSquare
  NewDataAvailabilityHeader : X.ExtendedDataSquare → X.DataAvailabilityHeader
  Hash : X.DataAvailabilityHeader → Bytes
  BlockHeight : X.Context → GoInt

/-! ## Effects -/

/-- What a run does that can be observed from outside the method. -/
inductive Event (X : Externals) where
  /-- A call `fmt.Printf(format, args...)`, all arguments being integers. -/
  | printf (format : String) (args : List Int)
  /-- A call `app.Logger().Error(msg, keyvals...)`. -/
  | loggerError (msg : String) (keyvals : List String)
  /-- A call of `filterTxs`. -/
  | filterTxs (ctx : X.Context) (handler : X.AnteHandler) (txConfig : X.TxConfig)
      (txs : List Bytes)
  /-- A call of `app.GovSquareSizeUpperBound`. -/
  | govSquareSizeUpperBound (ctx : X.Context)
  /-- A call of `square.Build`. -/
  | squareBuild (txs : List Bytes) (appVersion : Nat) (maxSquareSize : GoInt)
  /-- A call of `da.ExtendShares`. -/
  | extendShares (s : List Bytes)
  /-- A call of `da.NewDataAvailabilityHeader`. -/
  | newDataAvailabilityHeader (eds : X.ExtendedDataSquare)

/-- The value a run panics with. -/
inductive PanicValue where
  /-- The statement `panic(err)`. -/
  | error (err : GoError)
  /-- The runtime error of reading a field through a `nil` pointer. -/
  | nilPointerDereference
deriving DecidableEq

/-- How a run ends. -/
inductive Outcome where
  | returned (resp : ResponsePrepareProposal)
  | panicked (v : PanicValue)
deriving DecidableEq

/-- One run: the events in the order they happen, and the way the run ends. -/
structure Run (X : Externals) where
  trace : List (Event X)
  outcome : Outcome

/-! ## The method -/

/-- Lines 51-54: `totalSize := 0; for _, tx := range txs { totalSize += len(tx) }`
on Go `int`. -/
def totalSize (txs : List Bytes) : Int :=
  txs.foldl (fun acc tx => wrapInt64 (acc + (tx.length : Int))) 0

/-- Line 23: the header the proposal context is created from. -/
def proposalHeader {X : Externals} (app : App X) : Header :=
  { ChainID := app.GetChainID, Height := addInt64 app.LastBlockHeight oneInt64 }

/-- Lines 28-36: the ante handler handed to `filterTxs`. -/
def anteHandler {X : Externals} (pkg : Packages X) (app : App X) : X.AnteHandler :=
  pkg.NewAnteHandler app.AccountKeeper app.BankKeeper app.BlobKeeper app.FeeGrantKeeper
    (pkg.SignModeHandler app.GetTxConfig) pkg.DefaultSigVerificationGasConsumer app.IBCKeeper

/-- Lines 59-84: erasure coding, commitment and response packaging, after the
events `pre`. -/
def extendAndPackage {X : Externals} (pkg : Packages X)
    (pre : List (Event X)) (dataSquare : X.Square) (txs : List Bytes) : Run X :=
  let pre := pre ++ [Event.extendShares (pkg.ToBytes dataSquare)]
  match pkg.ExtendShares (pkg.ToBytes dataSquare) with
  | .error err =>
    { trace := pre ++ [Event.loggerError
        "failure to erasure the data square while creating a proposal block"
        ["error", err.Error]],
      outcome := .panicked (.error err) }
  | .ok eds =>
    let dah := pkg.NewDataAvailabilityHeader eds
    { trace := pre ++ [Event.newDataAvailabilityHeader eds],
      outcome := .returned
        { BlockData := some
            { Txs := txs,
              SquareSize := toUint64 (pkg.Size dataSquare),
              Hash := pkg.Hash dah } } }

/-- Lines 48-57: the record of the final transaction count and byte size. -/
def reportSize {X : Externals} (pkg : Packages X) (sdkCtx : X.Context)
    (txs : List Bytes) : List (Event X) :=
  let numTxs := txs.length
  if numTxs > 0 then
    [Event.printf "proposal block %d created with %d txs and %d bytes\n\n"
      [(pkg.BlockHeight sdkCtx).val, (numTxs : Int), totalSize txs]]
  else []

/-- The method `func (app *App) PrepareProposal(req) abci.ResponsePrepareProposal`.
Line 37 is the first to read `req.BlockData.Txs`, before anything is printed: through a
`nil` pointer that read panics. The arguments of `square.Build` on line 43 are
evaluated from left to right, so the governance bound is read before the call. -/
def PrepareProposal {X : Externals} {ρ : Type} (pkg : Packages X) (app : App X)
    (req : RequestPrepareProposal ρ) : Run X :=
  let sdkCtx := app.NewProposalContext (proposalHeader app)
  let handler := anteHandler pkg app
  match req.BlockData with
  | none => { trace := [], outcome := .panicked .nilPointerDereference }
  | some blockData =>
    let txs := pkg.filterTxs sdkCtx handler app.txConfig blockData.Txs
    let appVersion := app.AppVersion
    let maxSquareSize := app.GovSquareSizeUpperBound sdkCtx
    let pre : List (Event X) :=
      [ Event.printf "num txs before filtering: %d\n" [(blockData.Txs.length : Int)],
        Event.filterTxs sdkCtx handler app.txConfig blockData.Txs,
        Event.printf "num txs after filtering: %d\n" [(txs.length : Int)],
        Event.govSquareSizeUpperBound sdkCtx,
        Event.squareBuild txs appVersion maxSquareSize ]
    match pkg.Build txs appVersion maxSquareSize with
    | .error err => { trace := pre, outcome := .panicked (.error err) }
    | .ok (dataSquare, txs) =>
      extendAndPackage pkg (pre ++ reportSize pkg sdkCtx txs) dataSquare txs

/-! ## The stages of one run, named -/

/-- The context of line 23. -/
def proposalContext {X : Externals} (app : App X) : X.Context :=
  app.NewProposalContext (proposalHeader app)

/-- The list `filterTxs` returns on line 38. -/
def filteredTxs {X : Externals} (pkg : Packages X) (app : App X) (blockData : Data) :
    List Bytes :=
  pkg.filterTxs (proposalContext app) (anteHandler pkg app) app.txConfig blockData.Txs

/-- The bound read on line 43. -/
def maxSquareSize {X : Externals} (app : App X) : GoInt :=
  app.GovSquareSizeUpperBound (proposalContext app)

/-- What `square.Build` returns on line 43. -/
def buildResult {X : Externals} (pkg : Packages X) (app : App X) (blockData : Data) :
    Except GoError (X.Square × List Bytes) :=
  pkg.Build (filteredTxs pkg app blockData) app.AppVersion (maxSquareSize app)

/-- The events of lines 37-43, up to and including the call of `square.Build`. -/
def eventsUntilBuild {X : Externals} (pkg : Packages X) (app : App X) (blockData : Data) :
    List (Event X) :=
  [ Event.printf "num txs before filtering: %d\n" [(blockData.Txs.length : Int)],
    Event.filterTxs (proposalContext app) (anteHandler pkg app) app.txConfig blockData.Txs,
    Event.printf "num txs after filtering: %d\n" [((filteredTxs pkg app blockData).length : Int)],
    Event.govSquareSizeUpperBound (proposalContext app),
    Event.squareBuild (filteredTxs pkg app blockData) app.AppVersion (maxSquareSize app) ]

/-- The mathematical sum of the byte lengths of a list of transactions. -/
def sumLengths (txs : List Bytes) : Nat := (txs.map List.length).sum

/-- The message of the logger record of lines 64-68. -/
def extendFailureMsg : String :=
  "failure to erasure the data square while creating a proposal block"

/-! ## A concrete node, for evaluating the method -/

/-- Concrete collaborator types: contexts are the headers they were created from,
squares and extended squares are lists of shares, a header of the extended square is
its bytes. -/
abbrev X0 : Externals where
  Context := Header
  AnteHandler := Unit
  TxConfig := Unit
  SignModeHandler := Unit
  SigGasConsumer := Unit
  AccountKeeper := Unit
  BankKeeper := Unit
  BlobKeeper := Unit
  FeeGrantKeeper := Unit
  IBCKeeper := Unit
  Square := List Bytes
  ExtendedDataSquare := List Bytes
  DataAvailabilityHeader := Bytes

/-- A small Go `int`. -/
def smallInt (n : Fin 1000) : GoInt :=
  ⟨(n.val : Int), by unfold int64Bound; omega⟩

/-- The error of a transaction that cannot fit. -/
def errTooLarge : GoError := { ident := 2, msg := "tx too large" }

/-- The error of an unextendable square. -/
def errExtend : GoError := { ident := 3, msg := "cannot extend" }

/-- Concrete collaborators. The filter drops empty transactions. The builder fails
when the bound is below one or some transaction is longer than four bytes, and
otherwise keeps the transactions of at most two bytes, in a square of size one. The
coder fails on more than two shares. -/
def pkg0 : Packages X0 where
  NewAnteHandler := fun _ _ _ _ _ _ _ => ()
  SignModeHandler := fun _ => ()
  DefaultSigVerificationGasConsumer := ()
  filterTxs := fun _ _ _ txs => txs.filter (fun tx => !tx.isEmpty)
  Build := fun txs _ maxSize =>
    if maxSize.val < 1 then .error { ident := 1, msg := "bound below minimum" }
    else if txs.any (fun tx => decide (4 < tx.length)) then .error errTooLarge
    else .ok (txs.filter (fun tx => decide (tx.length ≤ 2)),
              txs.filter (fun tx => decide (tx.length ≤ 2)))
  Size := fun _ => smallInt 1
  ToBytes := fun sq => sq
  ExtendShares := fun s => if 2 < s.length then .error errExtend else .ok (s ++ s)
  NewDataAvailabilityHeader := fun eds => eds.flatten
  Hash := fun dah => dah
  BlockHeight := fun ctx => ctx.Height

/-- A concrete node at height 41 with a governance bound of 64. -/
def app0 : App X0 where
  GetChainID := "test-chain"
  LastBlockHeight := smallInt 41
  NewProposalContext := fun h => h
  AccountKeeper := ()
  BankKeeper := ()
  BlobKeeper := ()
  FeeGrantKeeper := ()
  IBCKeeper := ()
  GetTxConfig := ()
  txConfig := ()
  AppVersion := 1
  GovSquareSizeUpperBound := fun _ => smallInt 64

/-- A request with the candidate transactions `txs`; what else it carries is a number. -/
def reqOf (txs : List Bytes) (other : Nat) : RequestPrepareProposal Nat :=
  { BlockData := some { Txs := txs, SquareSize := 0, Hash := [] }, rest := other }

/-- A request of another shape with the candidate transactions `txs`: it carries a
text, and its `BlockData` has other values in the fields the method does not read. -/
def reqOfOther (txs : List Bytes) (other : String) : RequestPrepareProposal String :=
  { BlockData := some { Txs := txs, SquareSize := 99, Hash := [9] }, rest := other }

/-- Four candidates: one is empty, one is longer than two bytes. -/
def txsMixed : List Bytes := [[1, 2], [], [3, 4, 5], [6]]

/-- One candidate that cannot fit. -/
def txsTooLarge : List Bytes := [[1, 2, 3, 4, 5]]

/-- Three candidates that all end up in the square. -/
def txsThree : List Bytes := [[1], [2], [3]]

/-- One valid candidate that the builder leaves out. -/
def txsDropped : List Bytes := [[1, 2, 3]]

/-! ## Two executions

One execution of the method is `PrepareProposal pkg app req`: `app` is the node as
that execution finds it and `pkg` holds what the collaborators answer in that
execution. Each collaborator is called at most once per execution, so a collaborator
that may answer differently from one execution to the next is a pair of unequal
functions, one per execution. Two executions are therefore taken on two nodes and two
sets of answers, and everything the two have in common is stated. -/

/-- Two nodes hold the same committed state: same last block height, chain id, app
version, keepers and transaction configuration, and the same state branch for every
header. The governance bound is kept apart. -/
structure SameCommittedState {X : Externals} (app₁ app₂ : App X) : Prop where
  lastBlockHeight : app₁.LastBlockHeight = app₂.LastBlockHeight
  chainID : app₁.GetChainID = app₂.GetChainID
  appVersion : app₁.AppVersion = app₂.AppVersion
  accountKeeper : app₁.AccountKeeper = app₂.AccountKeeper
  bankKeeper : app₁.BankKeeper = app₂.BankKeeper
  blobKeeper : app₁.BlobKeeper = app₂.BlobKeeper
  feeGrantKeeper : app₁.FeeGrantKeeper = app₂.FeeGrantKeeper
  ibcKeeper : app₁.IBCKeeper = app₂.IBCKeeper
  getTxConfig : app₁.GetTxConfig = app₂.GetTxConfig
  txConfig : app₁.txConfig = app₂.txConfig
  newProposalContext : ∀ h, app₁.NewProposalContext h = app₂.NewProposalContext h

/-- The collaborators are deterministic across two executions: given the same
arguments, `filterTxs`, `square.Build`, `da.ExtendShares` and
`da.NewDataAvailabilityHeader` answer the same in both, and so do the constructor of
the ante handler and the methods `Size`, `ToBytes` and `Hash` of the values they
exchange. Nothing is asked of `BlockHeight`. -/
structure DeterministicCollaborators {X : Externals} (pkg₁ pkg₂ : Packages X) : Prop where
  filterTxs : ∀ ctx handler cfg txs,
    pkg₁.filterTxs ctx handler cfg txs = pkg₂.filterTxs ctx handler cfg txs
  build : ∀ txs v m, pkg₁.Build txs v m = pkg₂.Build txs v m
  extendShares : ∀ s, pkg₁.ExtendShares s = pkg₂.ExtendShares s
  newDataAvailabilityHeader : ∀ eds,
    pkg₁.NewDataAvailabilityHeader eds = pkg₂.NewDataAvailabilityHeader eds
  newAnteHandler : ∀ a b c d e f g,
    pkg₁.NewAnteHandler a b c d e f g = pkg₂.NewAnteHandler a b c d e f g
  signModeHandler : ∀ cfg, pkg₁.SignModeHandler cfg = pkg₂.SignModeHandler cfg
  gasConsumer :
    pkg₁.DefaultSigVerificationGasConsumer = pkg₂.DefaultSigVerificationGasConsumer
  size : ∀ sq, pkg₁.Size sq = pkg₂.Size sq
  toBytes : ∀ sq, pkg₁.ToBytes sq = pkg₂.ToBytes sq
  hash : ∀ dah, pkg₁.Hash dah = pkg₂.Hash dah

/-- A second concrete node with the same committed state as `app0`; its governance
bound is 64 for a context at height 42 and 32 for any other. -/
def app1 : App X0 :=
  { app0 with
    GovSquareSizeUpperBound := fun ctx =>
      if ctx.Height.val = 42 then smallInt 64 else smallInt 32 }

/-- The collaborators of a second execution: they answer as `pkg0` does, and the
context reports block height 0. -/
def pkg1 : Packages X0 :=
  { pkg0 with BlockHeight := fun _ => smallInt 0 }

/-- The collaborators of an execution in which the filter answers differently from
`pkg0`: it keeps every candidate. -/
def pkgKeepAll : Packages X0 :=
  { pkg0 with filterTxs := fun _ _ _ txs => txs }

/-- The collaborators of an execution in which the builder answers differently from
`pkg0`: it always fails. -/
def pkgNoBuild : Packages X0 :=
  { pkg0 with Build := fun _ _ _ => .error errTooLarge }

/-! ## Machine integers: lemmas -/

theorem wrapInt64_range (x : Int) : -int64Bound ≤ wrapInt64 x ∧ wrapInt64 x < int64Bound := by
  unfold wrapInt64 int64Bound uint64Mod
  constructor <;> omega

theorem wrapInt64_of_range (x : Int) (hlo : -int64Bound ≤ x) (hhi : x < int64Bound) :
    wrapInt64 x = x := by
  unfold wrapInt64 int64Bound uint64Mod at *
  omega

/-! ## The four ways a run can go -/

theorem run_of_nil {X : Externals} {ρ : Type} (pkg : Packages X) (app : App X)
    (req : RequestPrepareProposal ρ) (hreq : req.BlockData = none) :
    PrepareProposal pkg app req = { trace := [], outcome := .panicked .nilPointerDereference } := by
  simp [PrepareProposal, hreq]

theorem run_of_build_error {X : Externals} {ρ : Type} (pkg : Packages X) (app : App X)
    (req : RequestPrepareProposal ρ) (bd : Data) (err : GoError)
    (hreq : req.BlockData = some bd) (hbuild : buildResult pkg app bd = .error err) :
    PrepareProposal pkg app req =
      { trace := eventsUntilBuild pkg app bd, outcome := .panicked (.error err) } := by
  unfold buildResult filteredTxs maxSquareSize proposalContext at hbuild
  simp [PrepareProposal, hreq, hbuild, eventsUntilBuild, filteredTxs, maxSquareSize,
    proposalContext]

theorem run_of_extend_error {X : Externals} {ρ : Type} (pkg : Packages X) (app : App X)
    (req : RequestPrepareProposal ρ) (bd : Data) (sq : X.Square) (txs : List Bytes)
    (err : GoError) (hreq : req.BlockData = some bd)
    (hbuild : buildResult pkg app bd = .ok (sq, txs))
    (hext : pkg.ExtendShares (pkg.ToBytes sq) = .error err) :
    PrepareProposal pkg app req =
      { trace := eventsUntilBuild pkg app bd ++ reportSize pkg (proposalContext app) txs ++
          [Event.extendShares (pkg.ToBytes sq),
           Event.loggerError extendFailureMsg ["error", err.Error]],
        outcome := .panicked (.error err) } := by
  unfold buildResult filteredTxs maxSquareSize proposalContext at hbuild
  simp [PrepareProposal, hreq, hbuild, hext, extendAndPackage, eventsUntilBuild, filteredTxs,
    maxSquareSize, proposalContext, extendFailureMsg]

theorem run_of_success {X : Externals} {ρ : Type} (pkg : Packages X) (app : App X)
    (req : RequestPrepareProposal ρ) (bd : Data) (sq : X.Square) (txs : List Bytes)
    (eds : X.ExtendedDataSquare) (hreq : req.BlockData = some bd)
    (hbuild : buildResult pkg app bd = .ok (sq, txs))
    (hext : pkg.ExtendShares (pkg.ToBytes sq) = .ok eds) :
    PrepareProposal pkg app req =
      { trace := eventsUntilBuild pkg app bd ++ reportSize pkg (proposalContext app) txs ++
          [Event.extendShares (pkg.ToBytes sq), Event.newDataAvailabilityHeader eds],
        outcome := .returned
          { BlockData := some
              { Txs := txs,
                SquareSize := toUint64 (pkg.Size sq),
                Hash := pkg.Hash (pkg.NewDataAvailabilityHeader eds) } } } := by
  unfold buildResult filteredTxs maxSquareSize proposalContext at hbuild
  simp [PrepareProposal, hreq, hbuild, hext, extendAndPackage, eventsUntilBuild, filteredTxs,
    maxSquareSize, proposalContext]

/-- Every run takes one of the four ways. -/
theorem run_cases {X : Externals} {ρ : Type} (pkg : Packages X) (app : App X)
    (req : RequestPrepareProposal ρ) :
    req.BlockData = none ∨
    (∃ bd err, req.BlockData = some bd ∧ buildResult pkg app bd = .error err) ∨
    (∃ bd sq txs err, req.BlockData = some bd ∧ buildResult pkg app bd = .ok (sq, txs) ∧
      pkg.ExtendShares (pkg.ToBytes sq) = .error err) ∨
    (∃ bd sq txs eds, req.BlockData = some bd ∧ buildResult pkg app bd = .ok (sq, txs) ∧
      pkg.ExtendShares (pkg.ToBytes sq) = .ok eds) := by
  cases hreq : req.BlockData with
  | none => exact Or.inl rfl
  | some bd =>
    right
    cases hbuild : buildResult pkg app bd with
    | error err => exact Or.inl ⟨bd, err, rfl, hbuild⟩
    | ok p =>
      right
      obtain ⟨sq, txs⟩ := p
      cases hext : pkg.ExtendShares (pkg.ToBytes sq) with
      | error err => exact Or.inl ⟨bd, sq, txs, err, rfl, hbuild, hext⟩
      | ok eds => exact Or.inr ⟨bd, sq, txs, eds, rfl, hbuild, hext⟩

/-! ## Shape of the trace -/

theorem not_mem_eventsUntilBuild_extendShares {X : Externals} (pkg : Packages X) (app : App X)
    (bd : Data) (s : List Bytes) : Event.extendShares s ∉ eventsUntilBuild pkg app bd := by
  simp [eventsUntilBuild]

theorem not_mem_eventsUntilBuild_header {X : Externals} (pkg : Packages X) (app : App X)
    (bd : Data) (eds : X.ExtendedDataSquare) :
    Event.newDataAvailabilityHeader eds ∉ eventsUntilBuild pkg app bd := by
  simp [eventsUntilBuild]

theorem not_mem_eventsUntilBuild_loggerError {X : Externals} (pkg : Packages X) (app : App X)
    (bd : Data) (m : String) (kv : List String) :
    Event.loggerError m kv ∉ eventsUntilBuild pkg app bd := by
  simp [eventsUntilBuild]

theorem not_mem_reportSize_header {X : Externals} (pkg : Packages X) (ctx : X.Context)
    (txs : List Bytes) (eds : X.ExtendedDataSquare) :
    Event.newDataAvailabilityHeader eds ∉ reportSize pkg ctx txs := by
  simp only [reportSize]
  split_ifs <;> simp

/-! ## The concrete collaborators keep order and respect the bound -/

theorem pkg0_filter_sublist (ctx : X0.Context) (handler : X0.AnteHandler) (cfg : X0.TxConfig)
    (txs : List Bytes) : (pkg0.filterTxs ctx handler cfg txs).Sublist txs := by
  simp [pkg0]

theorem pkg0_build_sublist (txs : List Bytes) (v : Nat) (m : GoInt) (sq : X0.Square)
    (out : List Bytes) (h : pkg0.Build txs v m = .ok (sq, out)) : out.Sublist txs := by
  simp only [pkg0] at h
  split_ifs at h
  simp only [Except.ok.injEq, Prod.mk.injEq] at h
  rw [← h.2]
  exact List.filter_sublist _

theorem toUint64_of_pow_two (x : GoInt) (k : Nat) (h : x.val = 2 ^ k) : toUint64 x = 2 ^ k := by
  have hpos : (0 : Int) < x.val := by rw [h]; positivity
  have hhi : x.val < uint64Mod := by
    have := x.property.2
    unfold int64Bound at this
    unfold uint64Mod
    omega
  unfold toUint64
  rw [Int.emod_eq_of_lt (le_of_lt hpos) hhi, h]
  have hcast : ((2 : Int) ^ k) = (((2 ^ k : Nat)) : Int) := by push_cast; rfl
  rw [hcast, Int.toNat_natCast]

theorem pkg0_build_size (txs : List Bytes) (v : Nat) (m : GoInt) (sq : X0.Square)
    (out : List Bytes) (h : pkg0.Build txs v m = .ok (sq, out)) :
    (∃ k : Nat, (pkg0.Size sq).val = 2 ^ k) ∧ (pkg0.Size sq).val ≤ m.val := by
  simp only [pkg0] at h
  split_ifs at h with h1 h2
  refine ⟨⟨0, rfl⟩, ?_⟩
  have : (pkg0.Size sq).val = 1 := rfl
  omega

theorem foldl_totalSize (txs : List Bytes) (acc : Nat)
    (h : ((acc + sumLengths txs : Nat) : Int) < int64Bound) :
    txs.foldl (fun a tx => wrapInt64 (a + (tx.length : Int))) (acc : Int) =
      ((acc + sumLengths txs : Nat) : Int) := by
  induction txs generalizing acc with
  | nil => simp [sumLengths]
  | cons tx rest ih =>
    have hsum : sumLengths (tx :: rest) = tx.length + sumLengths rest := by
      simp [sumLengths]
    rw [hsum] at h
    have hstep : wrapInt64 ((acc : Int) + (tx.length : Int)) = ((acc + tx.length : Nat) : Int) := by
      rw [wrapInt64_of_range]
      · push_cast; rfl
      · unfold int64Bound; omega
      · unfold int64Bound at h ⊢; omega
    rw [List.foldl_cons, hstep, ih (acc + tx.length) (by rw [← Nat.add_assoc] at h; exact h), hsum,
      Nat.add_assoc]

/-- The loop of lines 51-54 computes the sum of the byte lengths whenever that sum
fits in an `int`. -/
theorem totalSize_eq_sumLengths (txs : List Bytes)
    (h : (sumLengths txs : Int) < int64Bound) : totalSize txs = (sumLengths txs : Int) := by
  have := foldl_totalSize txs 0 (by simpa using h)
  simpa [totalSize] using this

theorem mem_reportSize_of_ne_nil {X : Externals} (pkg : Packages X) (ctx : X.Context)
    (txs : List Bytes) (hne : txs ≠ []) :
    reportSize pkg ctx txs =
      [Event.printf "proposal block %d created with %d txs and %d bytes\n\n"
        [(pkg.BlockHeight ctx).val, (txs.length : Int), totalSize txs]] := by
  have hpos : txs.length > 0 := List.length_pos.mpr hne
  simp [reportSize, hpos]

theorem reportSize_nil {X : Externals} (pkg : Packages X) (ctx : X.Context) :
    reportSize pkg ctx [] = [] := by
  simp [reportSize]

theorem not_mem_eventsUntilBuild_sizeRecord {X : Externals} (pkg : Packages X) (app : App X)
    (bd : Data) (args : List Int) :
    Event.printf "proposal block %d created with %d txs and %d bytes\n\n" args ∉
      eventsUntilBuild pkg app bd := by
  simp [eventsUntilBuild]

/-- The events of a run whose call of `square.Build` succeeds: those up to the call,
the size record, then two events that are no printed lines. -/
theorem trace_of_build_ok {X : Externals} {ρ : Type} (pkg : Packages X) (app : App X)
    (req : RequestPrepareProposal ρ) (bd : Data) (sq : X.Square) (txs : List Bytes)
    (hreq : req.BlockData = some bd) (hbuild : buildResult pkg app bd = .ok (sq, txs)) :
    ∃ e, (∀ fmt args, e ≠ Event.printf fmt args) ∧
      (PrepareProposal pkg app req).trace =
        eventsUntilBuild pkg app bd ++ reportSize pkg (proposalContext app) txs ++
          [Event.extendShares (pkg.ToBytes sq), e] := by
  cases hext : pkg.ExtendShares (pkg.ToBytes sq) with
  | error err =>
    rw [run_of_extend_error pkg app req bd sq txs err hreq hbuild hext]
    exact ⟨_, fun _ _ h => (by cases h), rfl⟩
  | ok eds =>
    rw [run_of_success pkg app req bd sq txs eds hreq hbuild hext]
    exact ⟨_, fun _ _ h => (by cases h), rfl⟩

theorem not_mem_reportSize_filterTxs {X : Externals} (pkg : Packages X) (ctx₀ : X.Context)
    (txs₀ : List Bytes) (ctx : X.Context) (handler : X.AnteHandler) (cfg : X.TxConfig)
    (txs : List Bytes) : Event.filterTxs ctx handler cfg txs ∉ reportSize pkg ctx₀ txs₀ := by
  simp only [reportSize]
  split_ifs <;> simp

theorem not_mem_reportSize_gov {X : Externals} (pkg : Packages X) (ctx₀ : X.Context)
    (txs₀ : List Bytes) (ctx : X.Context) :
    Event.govSquareSizeUpperBound ctx ∉ reportSize pkg ctx₀ txs₀ := by
  simp only [reportSize]
  split_ifs <;> simp

/-- The events of any run on a request with block data start with those of lines
37-43; no later event is a call of `filterTxs` or of `GovSquareSizeUpperBound`. -/
theorem trace_of_some {X : Externals} {ρ : Type} (pkg : Packages X) (app : App X)
    (req : RequestPrepareProposal ρ) (bd : Data) (hreq : req.BlockData = some bd) :
    ∃ later, (PrepareProposal pkg app req).trace = eventsUntilBuild pkg app bd ++ later ∧
      (∀ ctx handler cfg txs, Event.filterTxs ctx handler cfg txs ∉ later) ∧
      (∀ ctx, Event.govSquareSizeUpperBound ctx ∉ later) := by
  cases hb : buildResult pkg app bd with
  | error err =>
    rw [run_of_build_error pkg app req bd err hreq hb]
    exact ⟨[], by simp, by simp, by simp⟩
  | ok p =>
    obtain ⟨sq, txs⟩ := p
    cases hext : pkg.ExtendShares (pkg.ToBytes sq) with
    | error err =>
      rw [run_of_extend_error pkg app req bd sq txs err hreq hb hext]
      refine ⟨reportSize pkg (proposalContext app) txs ++
        [Event.extendShares (pkg.ToBytes sq),
         Event.loggerError extendFailureMsg ["error", err.Error]], by simp, ?_, ?_⟩
      · intro ctx handler cfg l
        simp [not_mem_reportSize_filterTxs]
      · intro ctx
        simp [not_mem_reportSize_gov]
    | ok eds =>
      rw [run_of_success pkg app req bd sq txs eds hreq hb hext]
      refine ⟨reportSize pkg (proposalContext app) txs ++
        [Event.extendShares (pkg.ToBytes sq), Event.newDataAvailabilityHeader eds],
        by simp, ?_, ?_⟩
      · intro ctx handler cfg l
        simp [not_mem_reportSize_filterTxs]
      · intro ctx
        simp [not_mem_reportSize_gov]

/-! ## Claims -/

/-- C1. Order preservation: whenever `PrepareProposal` returns a response, the
transactions of the response are an order-preserving subsequence of the candidate
transactions `req.BlockData.Txs`, provided `filterTxs` returns an order-preserving
subsequence of its input and `square.Build` one of the transactions it is given. -/
theorem PrepareProposal_order_preservation {X : Externals} {ρ : Type} (pkg : Packages X)
    (app : App X) (req : RequestPrepareProposal ρ) (resp : ResponsePrepareProposal)
    (hfilter : ∀ ctx handler cfg txs, (pkg.filterTxs ctx handler cfg txs).Sublist txs)
    (hbuild : ∀ txs v m sq out, pkg.Build txs v m = .ok (sq, out) → out.Sublist txs)
    (hret : (PrepareProposal pkg app req).outcome = .returned resp) :
    ∃ bd out, req.BlockData = some bd ∧ resp.BlockData = some out ∧ out.Txs.Sublist bd.Txs := by
  rcases run_cases pkg app req with hnil | ⟨bd, err, hreq, hb⟩ | ⟨bd, sq, txs, err, hreq, hb, he⟩ |
    ⟨bd, sq, txs, eds, hreq, hb, he⟩
  · rw [run_of_nil pkg app req hnil] at hret
    cases hret
  · rw [run_of_build_error pkg app req bd err hreq hb] at hret
    cases hret
  · rw [run_of_extend_error pkg app req bd sq txs err hreq hb he] at hret
    cases hret
  · rw [run_of_success pkg app req bd sq txs eds hreq hb he] at hret
    simp only [Outcome.returned.injEq] at hret
    refine ⟨bd, _, hreq, by rw [← hret], ?_⟩
    exact (hbuild _ _ _ _ _ hb).trans (hfilter _ _ _ _)

/-- C1 at the concrete node: of the candidates `[1,2], [], [3,4,5], [6]` the response
keeps `[1,2], [6]`. -/
theorem PrepareProposal_order_preservation_witness :
    (PrepareProposal pkg0 app0 (reqOf txsMixed 7)).outcome =
        .returned { BlockData := some { Txs := [[1, 2], [6]], SquareSize := 1,
                                        Hash := [1, 2, 6, 1, 2, 6] } } ∧
    ∃ bd out, (reqOf txsMixed 7).BlockData = some bd ∧
      (ResponsePrepareProposal.mk (some { Txs := [[1, 2], [6]], SquareSize := 1,
                                          Hash := [1, 2, 6, 1, 2, 6] })).BlockData = some out ∧
      out.Txs.Sublist bd.Txs :=
  ⟨rfl, PrepareProposal_order_preservation pkg0 app0 (reqOf txsMixed 7) _
    pkg0_filter_sublist pkg0_build_sublist rfl⟩

/-- C2. When `square.Build` and `da.ExtendShares` both succeed, `PrepareProposal`
returns exactly the transactions returned by `square.Build`, the `Size()` of the square
it returned converted to `uint64`, and the `Hash()` of the data availability header of
`da.ExtendShares(shares.ToBytes(square))`. -/
theorem PrepareProposal_returns_triple {X : Externals} {ρ : Type} (pkg : Packages X)
    (app : App X) (req : RequestPrepareProposal ρ) (bd : Data) (sq : X.Square)
    (txs : List Bytes) (eds : X.ExtendedDataSquare)
    (hreq : req.BlockData = some bd)
    (hbuild : pkg.Build (pkg.filterTxs (app.NewProposalContext (proposalHeader app))
        (anteHandler pkg app) app.txConfig bd.Txs) app.AppVersion
        (app.GovSquareSizeUpperBound (app.NewProposalContext (proposalHeader app))) =
          .ok (sq, txs))
    (hext : pkg.ExtendShares (pkg.ToBytes sq) = .ok eds) :
    (PrepareProposal pkg app req).outcome = .returned
      { BlockData := some
          { Txs := txs,
            SquareSize := toUint64 (pkg.Size sq),
            Hash := pkg.Hash (pkg.NewDataAvailabilityHeader eds) } } := by
  rw [run_of_success pkg app req bd sq txs eds hreq hbuild hext]

/-- C2 at the concrete node: the filter keeps three candidates, the builder two of
them, and the response carries the builder's two. -/
theorem PrepareProposal_returns_triple_witness :
    pkg0.filterTxs (app0.NewProposalContext (proposalHeader app0)) (anteHandler pkg0 app0)
        app0.txConfig txsMixed = [[1, 2], [3, 4, 5], [6]] ∧
    (PrepareProposal pkg0 app0 (reqOf txsMixed 7)).outcome = .returned
      { BlockData := some
          { Txs := [[1, 2], [6]],
            SquareSize := toUint64 (pkg0.Size [[1, 2], [6]]),
            Hash := pkg0.Hash (pkg0.NewDataAvailabilityHeader [[1, 2], [6], [1, 2], [6]]) } } :=
  ⟨rfl, PrepareProposal_returns_triple pkg0 app0 (reqOf txsMixed 7)
    { Txs := txsMixed, SquareSize := 0, Hash := [] } [[1, 2], [6]] [[1, 2], [6]]
    [[1, 2], [6], [1, 2], [6]] rfl rfl rfl⟩

/-- C3. When `square.Build` returns an error, `PrepareProposal` panics with that error,
returns no response, and calls neither `da.ExtendShares` nor
`da.NewDataAvailabilityHeader`. -/
theorem PrepareProposal_build_failure_fatal {X : Externals} {ρ : Type} (pkg : Packages X)
    (app : App X) (req : RequestPrepareProposal ρ) (bd : Data) (err : GoError)
    (hreq : req.BlockData = some bd)
    (hbuild : pkg.Build (pkg.filterTxs (app.NewProposalContext (proposalHeader app))
        (anteHandler pkg app) app.txConfig bd.Txs) app.AppVersion
        (app.GovSquareSizeUpperBound (app.NewProposalContext (proposalHeader app))) =
          .error err) :
    (PrepareProposal pkg app req).outcome = .panicked (.error err) ∧
    (∀ resp, (PrepareProposal pkg app req).outcome ≠ .returned resp) ∧
    (∀ s, Event.extendShares s ∉ (PrepareProposal pkg app req).trace) ∧
    (∀ eds, Event.newDataAvailabilityHeader eds ∉ (PrepareProposal pkg app req).trace) := by
  rw [run_of_build_error pkg app req bd err hreq hbuild]
  refine ⟨rfl, fun resp h => (by cases h), ?_, ?_⟩
  · exact fun s => not_mem_eventsUntilBuild_extendShares pkg app bd s
  · exact fun eds => not_mem_eventsUntilBuild_header pkg app bd eds

/-- C3 at the concrete node: a candidate of five bytes cannot fit. -/
theorem PrepareProposal_build_failure_fatal_witness :
    (PrepareProposal pkg0 app0 (reqOf txsTooLarge 7)).outcome = .panicked (.error errTooLarge) ∧
    (∀ resp, (PrepareProposal pkg0 app0 (reqOf txsTooLarge 7)).outcome ≠ .returned resp) ∧
    (∀ s, Event.extendShares s ∉ (PrepareProposal pkg0 app0 (reqOf txsTooLarge 7)).trace) ∧
    (∀ eds, Event.newDataAvailabilityHeader eds ∉
      (PrepareProposal pkg0 app0 (reqOf txsTooLarge 7)).trace) :=
  PrepareProposal_build_failure_fatal pkg0 app0 (reqOf txsTooLarge 7)
    { Txs := txsTooLarge, SquareSize := 0, Hash := [] } errTooLarge rfl rfl

/-- C4. When `square.Build` succeeds and `da.ExtendShares` returns an error, the last
thing `PrepareProposal` does before halting is to emit the logger record, at the error
level, that carries the message of the error; it then panics with that same error,
returns no response, and never calls `da.NewDataAvailabilityHeader`. -/
theorem PrepareProposal_extend_failure_logged {X : Externals} {ρ : Type} (pkg : Packages X)
    (app : App X) (req : RequestPrepareProposal ρ) (bd : Data) (sq : X.Square)
    (txs : List Bytes) (err : GoError)
    (hreq : req.BlockData = some bd)
    (hbuild : pkg.Build (pkg.filterTxs (app.NewProposalContext (proposalHeader app))
        (anteHandler pkg app) app.txConfig bd.Txs) app.AppVersion
        (app.GovSquareSizeUpperBound (app.NewProposalContext (proposalHeader app))) =
          .ok (sq, txs))
    (hext : pkg.ExtendShares (pkg.ToBytes sq) = .error err) :
    (∃ before, (PrepareProposal pkg app req).trace = before ++
      [Event.loggerError "failure to erasure the data square while creating a proposal block"
        ["error", err.Error]]) ∧
    (PrepareProposal pkg app req).outcome = .panicked (.error err) ∧
    (∀ resp, (PrepareProposal pkg app req).outcome ≠ .returned resp) ∧
    (∀ eds, Event.newDataAvailabilityHeader eds ∉ (PrepareProposal pkg app req).trace) := by
  rw [run_of_extend_error pkg app req bd sq txs err hreq hbuild hext]
  refine ⟨⟨eventsUntilBuild pkg app bd ++ reportSize pkg (proposalContext app) txs ++
      [Event.extendShares (pkg.ToBytes sq)], by simp [extendFailureMsg]⟩, rfl,
    fun resp h => (by cases h), ?_⟩
  intro eds hmem
  simp only [List.mem_append, List.mem_cons, List.mem_singleton, List.not_mem_nil,
    or_false] at hmem
  rcases hmem with (h | h) | h | h
  · exact not_mem_eventsUntilBuild_header pkg app bd eds h
  · exact not_mem_reportSize_header pkg _ txs eds h
  · cases h
  · cases h

/-- C4 at the concrete node: three shares cannot be extended. -/
theorem PrepareProposal_extend_failure_logged_witness :
    (∃ before, (PrepareProposal pkg0 app0 (reqOf txsThree 7)).trace = before ++
      [Event.loggerError "failure to erasure the data square while creating a proposal block"
        ["error", errExtend.Error]]) ∧
    (PrepareProposal pkg0 app0 (reqOf txsThree 7)).outcome = .panicked (.error errExtend) ∧
    (∀ resp, (PrepareProposal pkg0 app0 (reqOf txsThree 7)).outcome ≠ .returned resp) ∧
    (∀ eds, Event.newDataAvailabilityHeader eds ∉
      (PrepareProposal pkg0 app0 (reqOf txsThree 7)).trace) :=
  PrepareProposal_extend_failure_logged pkg0 app0 (reqOf txsThree 7)
    { Txs := txsThree, SquareSize := 0, Hash := [] } txsThree txsThree errExtend rfl rfl rfl

/-- C5, evaluated where `square.Build` fails: the run panics with the builder's error
after printing the two filter counters only; no logger record is emitted and no
printed line names the failing stage or carries the error. -/
theorem PrepareProposal_build_failure_not_logged :
    pkg0.Build (pkg0.filterTxs (app0.NewProposalContext (proposalHeader app0))
        (anteHandler pkg0 app0) app0.txConfig txsTooLarge) app0.AppVersion
        (app0.GovSquareSizeUpperBound (app0.NewProposalContext (proposalHeader app0))) =
          .error errTooLarge ∧
    (PrepareProposal pkg0 app0 (reqOf txsTooLarge 7)).outcome = .panicked (.error errTooLarge) ∧
    (∀ m kv, Event.loggerError m kv ∉ (PrepareProposal pkg0 app0 (reqOf txsTooLarge 7)).trace) ∧
    (∀ fmt args, Event.printf fmt args ∈ (PrepareProposal pkg0 app0 (reqOf txsTooLarge 7)).trace →
      (fmt = "num txs before filtering: %d\n" ∨ fmt = "num txs after filtering: %d\n") ∧
      args = [1]) := by
  have hrun := run_of_build_error pkg0 app0 (reqOf txsTooLarge 7)
    { Txs := txsTooLarge, SquareSize := 0, Hash := [] } errTooLarge rfl rfl
  rw [hrun]
  refine ⟨rfl, rfl, ?_, ?_⟩
  · intro m kv
    exact not_mem_eventsUntilBuild_loggerError _ _ _ m kv
  · intro fmt args hmem
    simp only [eventsUntilBuild, List.mem_cons, Event.printf.injEq, List.mem_singleton,
      List.not_mem_nil, or_false, false_or, reduceCtorEq] at hmem
    rcases hmem with ⟨h1, h2⟩ | ⟨h1, h2⟩
    · exact ⟨Or.inl h1, by rw [h2]; rfl⟩
    · exact ⟨Or.inr h1, by rw [h2]; rfl⟩

/-- C6. Size bound: whenever `PrepareProposal` returns a response, its `SquareSize` is a
power of two and is at most `app.GovSquareSizeUpperBound(sdkCtx)`, the bound that was
passed to `square.Build`, provided `square.Build` only returns squares whose `Size()`
is a power of two not exceeding the maximum it is given. -/
theorem PrepareProposal_square_size_bound {X : Externals} {ρ : Type} (pkg : Packages X)
    (app : App X) (req : RequestPrepareProposal ρ) (resp : ResponsePrepareProposal)
    (hsize : ∀ txs v m sq out, pkg.Build txs v m = .ok (sq, out) →
      (∃ k : Nat, (pkg.Size sq).val = 2 ^ k) ∧ (pkg.Size sq).val ≤ m.val)
    (hret : (PrepareProposal pkg app req).outcome = .returned resp) :
    ∃ out, resp.BlockData = some out ∧
      (∃ k : Nat, out.SquareSize = 2 ^ k) ∧
      (out.SquareSize : Int) ≤
        (app.GovSquareSizeUpperBound (app.NewProposalContext (proposalHeader app))).val ∧
      ∃ txs, Event.squareBuild txs app.AppVersion
        (app.GovSquareSizeUpperBound (app.NewProposalContext (proposalHeader app))) ∈
          (PrepareProposal pkg app req).trace := by
  rcases run_cases pkg app req with hnil | ⟨bd, err, hreq, hb⟩ | ⟨bd, sq, txs, err, hreq, hb, he⟩ |
    ⟨bd, sq, txs, eds, hreq, hb, he⟩
  · rw [run_of_nil pkg app req hnil] at hret
    cases hret
  · rw [run_of_build_error pkg app req bd err hreq hb] at hret
    cases hret
  · rw [run_of_extend_error pkg app req bd sq txs err hreq hb he] at hret
    cases hret
  · rw [run_of_success pkg app req bd sq txs eds hreq hb he] at hret ⊢
    simp only [Outcome.returned.injEq] at hret
    obtain ⟨⟨k, hk⟩, hle⟩ := hsize _ _ _ _ _ hb
    have hconv := toUint64_of_pow_two (pkg.Size sq) k hk
    refine ⟨_, by rw [← hret], ⟨k, hconv⟩, ?_, filteredTxs pkg app bd, ?_⟩
    · show ((toUint64 (pkg.Size sq) : Nat) : Int) ≤ (maxSquareSize app).val
      rw [hconv]
      push_cast
      rw [← hk]
      exact hle
    · simp [eventsUntilBuild, maxSquareSize, proposalContext]

/-- C6 at the concrete node: the response has square size 1 under the bound 64. -/
theorem PrepareProposal_square_size_bound_witness :
    (PrepareProposal pkg0 app0 (reqOf txsMixed 7)).outcome =
        .returned { BlockData := some { Txs := [[1, 2], [6]], SquareSize := 1,
                                        Hash := [1, 2, 6, 1, 2, 6] } } ∧
    ∃ out, (ResponsePrepareProposal.mk (some { Txs := [[1, 2], [6]], SquareSize := 1,
                                               Hash := [1, 2, 6, 1, 2, 6] })).BlockData = some out ∧
      (∃ k : Nat, out.SquareSize = 2 ^ k) ∧
      (out.SquareSize : Int) ≤
        (app0.GovSquareSizeUpperBound (app0.NewProposalContext (proposalHeader app0))).val ∧
      ∃ txs, Event.squareBuild txs app0.AppVersion
        (app0.GovSquareSizeUpperBound (app0.NewProposalContext (proposalHeader app0))) ∈
          (PrepareProposal pkg0 app0 (reqOf txsMixed 7)).trace :=
  ⟨rfl, PrepareProposal_square_size_bound pkg0 app0 (reqOf txsMixed 7) _ pkg0_build_size rfl⟩

/-- A run whose call of `square.Build` returns at least one transaction prints the
size record. -/
theorem mem_trace_sizeRecord {X : Externals} {ρ : Type} (pkg : Packages X) (app : App X)
    (req : RequestPrepareProposal ρ) (bd : Data) (sq : X.Square) (txs : List Bytes)
    (hreq : req.BlockData = some bd) (hbuild : buildResult pkg app bd = .ok (sq, txs))
    (hne : txs ≠ []) :
    Event.printf "proposal block %d created with %d txs and %d bytes\n\n"
      [(pkg.BlockHeight (proposalContext app)).val, (txs.length : Int), totalSize txs] ∈
        (PrepareProposal pkg app req).trace := by
  obtain ⟨e, _, htrace⟩ := trace_of_build_ok pkg app req bd sq txs hreq hbuild
  rw [htrace, mem_reportSize_of_ne_nil pkg _ txs hne]
  simp

/-- The two executions agree on everything the outcome is computed from, up to the
answer of `square.Build`. -/
theorem buildResult_congr {X : Externals} (pkg₁ pkg₂ : Packages X) (app₁ app₂ : App X)
    (bd₁ bd₂ : Data) (hstate : SameCommittedState app₁ app₂)
    (hgov : app₁.GovSquareSizeUpperBound (app₁.NewProposalContext (proposalHeader app₁)) =
      app₂.GovSquareSizeUpperBound (app₂.NewProposalContext (proposalHeader app₂)))
    (hdet : DeterministicCollaborators pkg₁ pkg₂) (htxs : bd₁.Txs = bd₂.Txs) :
    buildResult pkg₁ app₁ bd₁ = buildResult pkg₂ app₂ bd₂ := by
  have hheader : proposalHeader app₁ = proposalHeader app₂ := by
    simp only [proposalHeader, hstate.lastBlockHeight, hstate.chainID]
  have hctx : proposalContext app₁ = proposalContext app₂ := by
    simp only [proposalContext, hheader, hstate.newProposalContext]
  have hhandler : anteHandler pkg₁ app₁ = anteHandler pkg₂ app₂ := by
    simp only [anteHandler, hstate.accountKeeper, hstate.bankKeeper, hstate.blobKeeper,
      hstate.feeGrantKeeper, hstate.ibcKeeper, hstate.getTxConfig, hdet.newAnteHandler,
      hdet.signModeHandler, hdet.gasConsumer]
  have hfiltered : filteredTxs pkg₁ app₁ bd₁ = filteredTxs pkg₂ app₂ bd₂ := by
    simp only [filteredTxs, hctx, hhandler, hstate.txConfig, htxs, hdet.filterTxs]
  have hmax : maxSquareSize app₁ = maxSquareSize app₂ := hgov
  simp only [buildResult, hfiltered, hstate.appVersion, hmax, hdet.build]

/-- C7. Determinism. Take two executions of `PrepareProposal`, each on its own node,
with its own collaborators' answers and its own request. If the two requests carry the
same candidate transactions, the two nodes hold the same committed state (last block
height, chain id, app version, keepers, state branch) and read the same governance
maximum square size, and the collaborators are deterministic (`filterTxs`,
`square.Build`, `da.ExtendShares` and `da.NewDataAvailabilityHeader` answer the same
in both executions on the same arguments), then the two executions end the same way:
either both panic with the same value or both return the same `(Txs, SquareSize, Hash)`.
What else the requests carry, the bound the nodes would read from other contexts and
what the executions print are free to differ. The assumption on the collaborators is
needed: `outcome_depends_on_filterTxs_answer` and `outcome_depends_on_build_answer`
are two executions on one node and one request that end differently. -/
theorem PrepareProposal_deterministic {X : Externals} {ρ₁ ρ₂ : Type}
    (pkg₁ pkg₂ : Packages X) (app₁ app₂ : App X)
    (req₁ : RequestPrepareProposal ρ₁) (req₂ : RequestPrepareProposal ρ₂)
    (htxs : req₁.BlockData.map Data.Txs = req₂.BlockData.map Data.Txs)
    (hstate : SameCommittedState app₁ app₂)
    (hgov : app₁.GovSquareSizeUpperBound (app₁.NewProposalContext (proposalHeader app₁)) =
      app₂.GovSquareSizeUpperBound (app₂.NewProposalContext (proposalHeader app₂)))
    (hdet : DeterministicCollaborators pkg₁ pkg₂) :
    (PrepareProposal pkg₁ app₁ req₁).outcome = (PrepareProposal pkg₂ app₂ req₂).outcome ∧
    ((∃ v, (PrepareProposal pkg₁ app₁ req₁).outcome = .panicked v ∧
           (PrepareProposal pkg₂ app₂ req₂).outcome = .panicked v) ∨
     (∃ txs size hash,
        (PrepareProposal pkg₁ app₁ req₁).outcome =
          .returned { BlockData := some { Txs := txs, SquareSize := size, Hash := hash } } ∧
        (PrepareProposal pkg₂ app₂ req₂).outcome =
          .returned { BlockData := some { Txs := txs, SquareSize := size, Hash := hash } })) := by
  cases h₁ : req₁.BlockData with
  | none =>
    cases h₂ : req₂.BlockData with
    | some bd₂ => simp [h₁, h₂] at htxs
    | none =>
      rw [run_of_nil pkg₁ app₁ req₁ h₁, run_of_nil pkg₂ app₂ req₂ h₂]
      exact ⟨rfl, Or.inl ⟨_, rfl, rfl⟩⟩
  | some bd₁ =>
    cases h₂ : req₂.BlockData with
    | none => simp [h₁, h₂] at htxs
    | some bd₂ =>
      have hEq : bd₁.Txs = bd₂.Txs := by simpa [h₁, h₂] using htxs
      have hbuild := buildResult_congr pkg₁ pkg₂ app₁ app₂ bd₁ bd₂ hstate hgov hdet hEq
      cases hb : buildResult pkg₁ app₁ bd₁ with
      | error err =>
        rw [run_of_build_error pkg₁ app₁ req₁ bd₁ err h₁ hb,
          run_of_build_error pkg₂ app₂ req₂ bd₂ err h₂ (hbuild ▸ hb)]
        exact ⟨rfl, Or.inl ⟨_, rfl, rfl⟩⟩
      | ok p =>
        obtain ⟨sq, txs⟩ := p
        cases he : pkg₁.ExtendShares (pkg₁.ToBytes sq) with
        | error err =>
          have he₂ : pkg₂.ExtendShares (pkg₂.ToBytes sq) = .error err := by
            rw [← hdet.toBytes, ← hdet.extendShares]
            exact he
          rw [run_of_extend_error pkg₁ app₁ req₁ bd₁ sq txs err h₁ hb he,
            run_of_extend_error pkg₂ app₂ req₂ bd₂ sq txs err h₂ (hbuild ▸ hb) he₂]
          exact ⟨rfl, Or.inl ⟨_, rfl, rfl⟩⟩
        | ok eds =>
          have he₂ : pkg₂.ExtendShares (pkg₂.ToBytes sq) = .ok eds := by
            rw [← hdet.toBytes, ← hdet.extendShares]
            exact he
          rw [run_of_success pkg₁ app₁ req₁ bd₁ sq txs eds h₁ hb he,
            run_of_success pkg₂ app₂ req₂ bd₂ sq txs eds h₂ (hbuild ▸ hb) he₂]
          rw [hdet.size, hdet.hash, hdet.newDataAvailabilityHeader]
          exact ⟨rfl, Or.inr ⟨_, _, _, rfl, rfl⟩⟩

/-- The two concrete nodes hold the same committed state. -/
theorem app0_app1_sameCommittedState : SameCommittedState app0 app1 :=
  ⟨rfl, rfl, rfl, rfl, rfl, rfl, rfl, rfl, rfl, rfl, fun _ => rfl⟩

/-- The collaborators `pkg0` and `pkg1` answer the same. -/
theorem pkg0_pkg1_deterministic : DeterministicCollaborators pkg0 pkg1 :=
  ⟨fun _ _ _ _ => rfl, fun _ _ _ => rfl, fun _ => rfl, fun _ => rfl,
    fun _ _ _ _ _ _ _ => rfl, fun _ => rfl, rfl, fun _ => rfl, fun _ => rfl, fun _ => rfl⟩

/-- C7 at two concrete executions. The requests have different shapes and the same
four candidates; the nodes differ in the bound they hold for contexts at other heights;
the executions print different block heights. Both return the same response. -/
theorem PrepareProposal_deterministic_witness :
    (PrepareProposal pkg0 app0 (reqOf txsMixed 7)).outcome =
        .returned { BlockData := some { Txs := [[1, 2], [6]], SquareSize := 1,
                                        Hash := [1, 2, 6, 1, 2, 6] } } ∧
    Event.printf "proposal block %d created with %d txs and %d bytes\n\n" [42, 2, 3] ∈
      (PrepareProposal pkg0 app0 (reqOf txsMixed 7)).trace ∧
    Event.printf "proposal block %d created with %d txs and %d bytes\n\n" [0, 2, 3] ∈
      (PrepareProposal pkg1 app1 (reqOfOther txsMixed "other")).trace ∧
    (PrepareProposal pkg0 app0 (reqOf txsMixed 7)).outcome =
      (PrepareProposal pkg1 app1 (reqOfOther txsMixed "other")).outcome ∧
    ((∃ v, (PrepareProposal pkg0 app0 (reqOf txsMixed 7)).outcome = .panicked v ∧
           (PrepareProposal pkg1 app1 (reqOfOther txsMixed "other")).outcome = .panicked v) ∨
     (∃ txs size hash,
        (PrepareProposal pkg0 app0 (reqOf txsMixed 7)).outcome =
          .returned { BlockData := some { Txs := txs, SquareSize := size, Hash := hash } } ∧
        (PrepareProposal pkg1 app1 (reqOfOther txsMixed "other")).outcome =
          .returned { BlockData := some { Txs := txs, SquareSize := size, Hash := hash } })) :=
  ⟨rfl,
    mem_trace_sizeRecord pkg0 app0 (reqOf txsMixed 7)
      { Txs := txsMixed, SquareSize := 0, Hash := [] } [[1, 2], [6]] [[1, 2], [6]] rfl rfl
      (by simp),
    mem_trace_sizeRecord pkg1 app1 (reqOfOther txsMixed "other")
      { Txs := txsMixed, SquareSize := 99, Hash := [9] } [[1, 2], [6]] [[1, 2], [6]] rfl rfl
      (by simp),
    PrepareProposal_deterministic pkg0 pkg1 app0 app1 (reqOf txsMixed 7)
      (reqOfOther txsMixed "other") rfl app0_app1_sameCommittedState rfl
      pkg0_pkg1_deterministic⟩

/-- The assumption on `filterTxs` cannot be dropped: on the same node and the same
request, an execution whose filter answers differently ends differently. -/
theorem outcome_depends_on_filterTxs_answer :
    ¬ DeterministicCollaborators pkg0 pkgKeepAll ∧
    (PrepareProposal pkg0 app0 (reqOf txsMixed 7)).outcome ≠
      (PrepareProposal pkgKeepAll app0 (reqOf txsMixed 7)).outcome := by
  have h₁ : (PrepareProposal pkg0 app0 (reqOf txsMixed 7)).outcome =
      .returned { BlockData := some { Txs := [[1, 2], [6]], SquareSize := 1,
                                      Hash := [1, 2, 6, 1, 2, 6] } } := rfl
  have h₂ : (PrepareProposal pkgKeepAll app0 (reqOf txsMixed 7)).outcome =
      .panicked (.error errExtend) := rfl
  refine ⟨fun hdet => ?_, fun h => ?_⟩
  · have hf := hdet.filterTxs (proposalContext app0) () () [[]]
    have hf₁ : pkg0.filterTxs (proposalContext app0) () () [[]] = [] := rfl
    have hf₂ : pkgKeepAll.filterTxs (proposalContext app0) () () [[]] = [[]] := rfl
    rw [hf₁, hf₂] at hf
    cases hf
  · rw [h₁, h₂] at h
    cases h

/-- The assumption on `square.Build` cannot be dropped either. -/
theorem outcome_depends_on_build_answer :
    ¬ DeterministicCollaborators pkg0 pkgNoBuild ∧
    (PrepareProposal pkg0 app0 (reqOf txsMixed 7)).outcome ≠
      (PrepareProposal pkgNoBuild app0 (reqOf txsMixed 7)).outcome := by
  have h₁ : (PrepareProposal pkg0 app0 (reqOf txsMixed 7)).outcome =
      .returned { BlockData := some { Txs := [[1, 2], [6]], SquareSize := 1,
                                      Hash := [1, 2, 6, 1, 2, 6] } } := rfl
  have h₂ : (PrepareProposal pkgNoBuild app0 (reqOf txsMixed 7)).outcome =
      .panicked (.error errTooLarge) := rfl
  refine ⟨fun hdet => ?_, fun h => ?_⟩
  · have hb := hdet.build [] 1 (smallInt 64)
    have hb₁ : pkg0.Build [] 1 (smallInt 64) = .ok ([], []) := rfl
    have hb₂ : pkgNoBuild.Build [] 1 (smallInt 64) = .error errTooLarge := rfl
    rw [hb₁, hb₂] at hb
    cases hb
  · rw [h₁, h₂] at h
    cases h

/-- C8, as stated, at a request whose only candidate passes the filter and is left out
by `square.Build`: the builder succeeds with no transaction, and the run records
neither a final count of 0 nor a byte size of 0. Every line it prints carries the
single number 1 (the counts before and after filtering) and it emits no logger record. -/
theorem PrepareProposal_empty_result_not_recorded :
    pkg0.Build (pkg0.filterTxs (app0.NewProposalContext (proposalHeader app0))
        (anteHandler pkg0 app0) app0.txConfig txsDropped) app0.AppVersion
        (app0.GovSquareSizeUpperBound (app0.NewProposalContext (proposalHeader app0))) =
          .ok ([], []) ∧
    (∀ fmt args, Event.printf fmt args ∈ (PrepareProposal pkg0 app0 (reqOf txsDropped 7)).trace →
      (fmt = "num txs before filtering: %d\n" ∨ fmt = "num txs after filtering: %d\n") ∧
      args = [1]) ∧
    (∀ m kv, Event.loggerError m kv ∉ (PrepareProposal pkg0 app0 (reqOf txsDropped 7)).trace) := by
  have hrun := run_of_success pkg0 app0 (reqOf txsDropped 7)
    { Txs := txsDropped, SquareSize := 0, Hash := [] } [] [] [] rfl rfl rfl
  rw [hrun]
  refine ⟨rfl, ?_, ?_⟩
  · intro fmt args hmem
    simp only [eventsUntilBuild, reportSize_nil, List.append_nil, List.mem_append, List.mem_cons,
      Event.printf.injEq, List.mem_singleton, List.not_mem_nil, or_false, false_or,
      reduceCtorEq] at hmem
    rcases hmem with ⟨h1, h2⟩ | ⟨h1, h2⟩
    · exact ⟨Or.inl h1, by rw [h2]; rfl⟩
    · exact ⟨Or.inr h1, by rw [h2]; rfl⟩
  · intro m kv hmem
    simp [eventsUntilBuild, reportSize_nil] at hmem

/-- C8, amended. When `square.Build` succeeds and returns at least one transaction, the
run prints one record that carries the block height of the proposal context, the
number of transactions `square.Build` returned and their total byte size as the loop
on Go `int` computes it, which is the sum of their byte lengths whenever that sum fits
in an `int`. When `square.Build` returns no transaction, the run prints no such record. -/
theorem PrepareProposal_records_final_size {X : Externals} {ρ : Type} (pkg : Packages X)
    (app : App X) (req : RequestPrepareProposal ρ) (bd : Data) (sq : X.Square)
    (txs : List Bytes)
    (hreq : req.BlockData = some bd)
    (hbuild : pkg.Build (pkg.filterTxs (app.NewProposalContext (proposalHeader app))
        (anteHandler pkg app) app.txConfig bd.Txs) app.AppVersion
        (app.GovSquareSizeUpperBound (app.NewProposalContext (proposalHeader app))) =
          .ok (sq, txs)) :
    (txs ≠ [] →
      Event.printf "proposal block %d created with %d txs and %d bytes\n\n"
        [(pkg.BlockHeight (app.NewProposalContext (proposalHeader app))).val,
         (txs.length : Int), totalSize txs] ∈ (PrepareProposal pkg app req).trace) ∧
    ((sumLengths txs : Int) < int64Bound → totalSize txs = (sumLengths txs : Int)) ∧
    (txs = [] → ∀ args,
      Event.printf "proposal block %d created with %d txs and %d bytes\n\n" args ∉
        (PrepareProposal pkg app req).trace) := by
  obtain ⟨e, he, htrace⟩ := trace_of_build_ok pkg app req bd sq txs hreq hbuild
  rw [htrace]
  refine ⟨?_, totalSize_eq_sumLengths txs, ?_⟩
  · intro hne
    rw [mem_reportSize_of_ne_nil pkg _ txs hne]
    simp [proposalContext]
  · intro hnil args hmem
    subst hnil
    simp only [reportSize_nil, List.append_nil, List.mem_append, List.mem_cons,
      List.mem_singleton, List.not_mem_nil, or_false, reduceCtorEq, false_or] at hmem
    rcases hmem with h | h
    · exact not_mem_eventsUntilBuild_sizeRecord pkg app bd args h
    · exact he _ _ h.symm

/-- C8, amended, at the concrete node: two transactions of three bytes in all, in the
proposal for height 42. -/
theorem PrepareProposal_records_final_size_witness :
    Event.printf "proposal block %d created with %d txs and %d bytes\n\n" [42, 2, 3] ∈
      (PrepareProposal pkg0 app0 (reqOf txsMixed 7)).trace :=
  (PrepareProposal_records_final_size pkg0 app0 (reqOf txsMixed 7)
    { Txs := txsMixed, SquareSize := 0, Hash := [] } [[1, 2], [6]] [[1, 2], [6]] rfl rfl).1
    (by simp)

/-- C9. Context acquisition: in every run, each call of `filterTxs` and each call of
`app.GovSquareSizeUpperBound` gets the context that `app.NewProposalContext` creates
from the header whose `ChainID` is `app.GetChainID()` and whose `Height` is
`app.LastBlockHeight() + 1` (the `int64` sum, which is the successor of the last
height below the largest `int64`). The header is made of the node alone: nothing the
request carries enters it. On a request with block data both calls are made. -/
theorem PrepareProposal_context_acquisition {X : Externals} {ρ : Type} (pkg : Packages X)
    (app : App X) (req : RequestPrepareProposal ρ) :
    (∀ ctx handler cfg txs,
      Event.filterTxs ctx handler cfg txs ∈ (PrepareProposal pkg app req).trace →
        ctx = app.NewProposalContext
          { ChainID := app.GetChainID, Height := addInt64 app.LastBlockHeight oneInt64 }) ∧
    (∀ ctx, Event.govSquareSizeUpperBound ctx ∈ (PrepareProposal pkg app req).trace →
        ctx = app.NewProposalContext
          { ChainID := app.GetChainID, Height := addInt64 app.LastBlockHeight oneInt64 }) ∧
    (addInt64 app.LastBlockHeight oneInt64).val = wrapInt64 (app.LastBlockHeight.val + 1) ∧
    (app.LastBlockHeight.val + 1 < int64Bound →
      (addInt64 app.LastBlockHeight oneInt64).val = app.LastBlockHeight.val + 1) ∧
    (∀ bd, req.BlockData = some bd →
      (∃ handler cfg, Event.filterTxs (app.NewProposalContext
          { ChainID := app.GetChainID, Height := addInt64 app.LastBlockHeight oneInt64 })
          handler cfg bd.Txs ∈ (PrepareProposal pkg app req).trace) ∧
      Event.govSquareSizeUpperBound (app.NewProposalContext
          { ChainID := app.GetChainID, Height := addInt64 app.LastBlockHeight oneInt64 }) ∈
        (PrepareProposal pkg app req).trace) := by
  refine ⟨?_, ?_, rfl, ?_, ?_⟩
  · intro ctx handler cfg txs hmem
    cases hreq : req.BlockData with
    | none =>
      rw [run_of_nil pkg app req hreq] at hmem
      simp at hmem
    | some bd =>
      obtain ⟨later, htrace, hnf, _⟩ := trace_of_some pkg app req bd hreq
      rw [htrace, List.mem_append] at hmem
      rcases hmem with h | h
      · simp only [eventsUntilBuild, List.mem_cons, List.mem_singleton, List.not_mem_nil,
          or_false, false_or, reduceCtorEq, Event.filterTxs.injEq] at h
        exact h.1
      · exact absurd h (hnf _ _ _ _)
  · intro ctx hmem
    cases hreq : req.BlockData with
    | none =>
      rw [run_of_nil pkg app req hreq] at hmem
      simp at hmem
    | some bd =>
      obtain ⟨later, htrace, _, hng⟩ := trace_of_some pkg app req bd hreq
      rw [htrace, List.mem_append] at hmem
      rcases hmem with h | h
      · simp only [eventsUntilBuild, List.mem_cons, List.mem_singleton, List.not_mem_nil,
          or_false, false_or, reduceCtorEq, Event.govSquareSizeUpperBound.injEq] at h
        exact h
      · exact absurd h (hng _)
  · intro hlt
    have hlo := app.LastBlockHeight.property.1
    show wrapInt64 (app.LastBlockHeight.val + oneInt64.val) = _
    have hone : oneInt64.val = 1 := rfl
    rw [hone]
    exact wrapInt64_of_range _ (by unfold int64Bound at hlo ⊢; omega) hlt
  · intro bd hreq
    obtain ⟨later, htrace, _, _⟩ := trace_of_some pkg app req bd hreq
    rw [htrace]
    refine ⟨⟨anteHandler pkg app, app.txConfig, ?_⟩, ?_⟩
    · simp [eventsUntilBuild, proposalContext, proposalHeader]
    · simp [eventsUntilBuild, proposalContext, proposalHeader]

/-- C10. Scenario C, the empty proposal: on a request with no candidate transaction,
when `filterTxs` and `square.Build` return subsequences of what they are given and
`square.Build` and `da.ExtendShares` succeed on the empty list, `PrepareProposal` does
not panic; it returns the response with no transaction, the size of the square built
from no transaction, and the data root of the extension of that square. -/
theorem PrepareProposal_empty_proposal {X : Externals} {ρ : Type} (pkg : Packages X)
    (app : App X) (req : RequestPrepareProposal ρ) (bd : Data) (sq : X.Square)
    (txs : List Bytes) (eds : X.ExtendedDataSquare)
    (hfilter : ∀ ctx handler cfg l, (pkg.filterTxs ctx handler cfg l).Sublist l)
    (hsub : ∀ l v m s out, pkg.Build l v m = .ok (s, out) → out.Sublist l)
    (hreq : req.BlockData = some bd) (hempty : bd.Txs = [])
    (hbuild : pkg.Build [] app.AppVersion
        (app.GovSquareSizeUpperBound (app.NewProposalContext (proposalHeader app))) =
          .ok (sq, txs))
    (hext : pkg.ExtendShares (pkg.ToBytes sq) = .ok eds) :
    (PrepareProposal pkg app req).outcome = .returned
      { BlockData := some
          { Txs := [],
            SquareSize := toUint64 (pkg.Size sq),
            Hash := pkg.Hash (pkg.NewDataAvailabilityHeader eds) } } ∧
    (∀ v, (PrepareProposal pkg app req).outcome ≠ .panicked v) := by
  have hf : filteredTxs pkg app bd = [] := by
    have := hfilter (proposalContext app) (anteHandler pkg app) app.txConfig bd.Txs
    unfold filteredTxs
    rw [hempty] at this ⊢
    exact List.sublist_nil.mp this
  have hb : buildResult pkg app bd = .ok (sq, txs) := by
    unfold buildResult
    rw [hf]
    exact hbuild
  have htxs : txs = [] := List.sublist_nil.mp (hsub _ _ _ _ _ hbuild)
  rw [run_of_success pkg app req bd sq txs eds hreq hb hext, htxs]
  exact ⟨rfl, fun v h => (by cases h)⟩

/-- C10 at the concrete node: the padding-only square has size 1 and the data root of
its extension is empty. -/
theorem PrepareProposal_empty_proposal_witness :
    (PrepareProposal pkg0 app0 (reqOf [] 7)).outcome = .returned
      { BlockData := some
          { Txs := [],
            SquareSize := toUint64 (pkg0.Size []),
            Hash := pkg0.Hash (pkg0.NewDataAvailabilityHeader []) } } ∧
    (∀ v, (PrepareProposal pkg0 app0 (reqOf [] 7)).outcome ≠ .panicked v) :=
  PrepareProposal_empty_proposal pkg0 app0 (reqOf [] 7) { Txs := [], SquareSize := 0, Hash := [] }
    [] [] [] pkg0_filter_sublist pkg0_build_sublist rfl rfl rfl rfl

end CelestiaApp
